import Mathlib

/-!
Verification of the promptchess tournament core.

Shallow embedding of the repository sources:
* `src/src/models.py` — `ProviderType`, `ModelConfig` and its `__post_init__`;
* `src/models.py` — the older `ModelConfig` variant (`ModelConfigV0`);
* `src/model_player.py` — `ModelPlayer.get_move` (retry loop, context building,
  random-fallback);
* `src/src/arena.py` — `EloCalculator`, `Game`, `League.play_game`,
  `League.run`, `League.save_state` / `League.load_state`, `Game.to_pgn`.

External collaborators (the chess rules library and the remote LLM clients)
are modelled as oracles: an abstract `ChessEngine` record of functions, a
response stream `Nat → String × String` for the remote structured-completion
capability, and `Nat`-seeded selection for `random.choice`.
-/

namespace PromptChess

/-- `ProviderType` enum of `src/src/models.py`. -/
inductive ProviderType where
  | OPENAI
  | ANTHROPIC
  | GEMINI
deriving DecidableEq, Repr

/-- The `.value` string of each enum member. -/
def ProviderType.value : ProviderType → String
  | .OPENAI => "OpenAI"
  | .ANTHROPIC => "Anthropic"
  | .GEMINI => "Gemini"

/-- `ProviderType(s)` enum lookup by value; raises (`none`) on unknown value. -/
def ProviderType.ofValue (s : String) : Option ProviderType :=
  if s = "OpenAI" then some .OPENAI
  else if s = "Anthropic" then some .ANTHROPIC
  else if s = "Gemini" then some .GEMINI
  else none

/-- The `ModelConfig` dataclass of `src/src/models.py` (field order and
defaults as in the source; Python floats are modelled as `ℚ`). -/
structure ModelConfig where
  provider : ProviderType
  api_name : String
  label : String
  instructions : String
  is_reasoning : Bool := false
  is_COT : Bool := false
  elo : ℚ := 400
  max_tokens : Nat := 2000
  thinking_effort : String := "medium"
deriving DecidableEq, Repr

/-- `ModelConfig.__post_init__` of `src/src/models.py`: rejects
`is_COT ∧ is_reasoning`, then for OpenAI adjusts `thinking_effort` from
`max_tokens`.  Raising is modelled as `Except.error`. -/
def ModelConfig.postInit (c : ModelConfig) : Except String ModelConfig :=
  if c.is_COT && c.is_reasoning then
    Except.error "Models must be reasoning XOR CoT"
  else if c.provider = ProviderType.OPENAI then
    if c.max_tokens < 2000 then Except.ok { c with thinking_effort := "low" }
    else if c.max_tokens ≥ 5000 then Except.ok { c with thinking_effort := "high" }
    else Except.ok c
  else Except.ok c

/-- The `ProviderType` enum of the older `src/models.py`. -/
inductive ProviderTypeV0 where
  | OPENAI
  | ANTHROPIC
deriving DecidableEq, Repr

/-- The `ModelConfig` dataclass of the older `src/models.py`. -/
structure ModelConfigV0 where
  provider : ProviderTypeV0
  name : String
  is_reasoning : Bool
  is_COT : Bool
deriving DecidableEq, Repr

/-- `ModelConfig.__post_init__` of `src/models.py`. -/
def ModelConfigV0.postInit (c : ModelConfigV0) : Except String ModelConfigV0 :=
  if c.is_COT && c.is_reasoning then
    Except.error "Models must be reasoning XOR CoT"
  else Except.ok c

/-! ## ModelPlayer (`src/model_player.py`) -/

/-- `random.choice(l)` with the random draw supplied as a `seed` oracle;
`none` models the `IndexError` raised on an empty sequence. -/
def randomChoice (l : List α) (seed : Nat) : Option α :=
  l.get? (seed % l.length)

/-- The prompt context built at the top of each retry iteration of
`ModelPlayer.get_move`: with no failed attempts the board string and move
history only, otherwise additionally the newline-joined illegal attempts. -/
def attemptContext (boardStr hist : String) (failed : List String) : String :=
  if failed.isEmpty then
    boardStr ++ "\n" ++ "Move history: \n" ++ hist
  else
    boardStr ++ "\n" ++ "\nIllegal moves in this position:\n" ++
      String.intercalate "\n" failed ++ "Move history: \n" ++ hist

/-- The rationale string returned on the random-move fallback path of
`ModelPlayer.get_move`. -/
def fallbackRationale (failed : List String) : String :=
  "Fallback move, " ++ ("Failed attempts: " ++ String.intercalate " " failed)

/-- The `for i in range(self.max_retries)` loop of `ModelPlayer.get_move`.
`legal` and `parse` are the position's legal-move list and SAN parser
(`board.legal_moves`, `board.parse_san`); `responses i` is the pair returned
by the i-th `self.client.call`; the second component of the result is the
trace of context strings actually sent to the remote capability. -/
def getMoveLoop (legal : List M) (parse : String → Option M) (boardStr hist : String)
    (responses : Nat → String × String) (seed : Nat) :
    Nat → Nat → List String → Option (M × String) × List String
  | 0, _, failed =>
      ((randomChoice legal seed).map (fun m => (m, fallbackRationale failed)), [])
  | remaining + 1, i, failed =>
      let ctx := attemptContext boardStr hist failed
      let resp := responses i
      match parse resp.1 with
      | some m => (some (m, resp.2), [ctx])
      | none =>
          let rest := getMoveLoop legal parse boardStr hist responses seed
            remaining (i + 1) (failed ++ [resp.1])
          (rest.1, ctx :: rest.2)

/-- `ModelPlayer.get_move` (`src/model_player.py`): result only. -/
def get_move (legal : List M) (parse : String → Option M) (boardStr hist : String)
    (maxRetries : Nat) (responses : Nat → String × String) (seed : Nat) :
    Option (M × String) :=
  (getMoveLoop legal parse boardStr hist responses seed maxRetries 0 []).1

/-- The context strings `ModelPlayer.get_move` passes to the remote
capability, in call order. -/
def getMoveContexts (legal : List M) (parse : String → Option M) (boardStr hist : String)
    (maxRetries : Nat) (responses : Nat → String × String) (seed : Nat) :
    List String :=
  (getMoveLoop legal parse boardStr hist responses seed maxRetries 0 []).2

/-! ## The chess rules capability and `Game` / `League.play_game`
(`src/src/arena.py`) -/

/-- The external chess rules library (python-chess), abstracted as the
operations `League.play_game` and `Game.to_pgn` use: `turn` is `true` when
white is to move, `init` is `chess.Board()`. -/
structure ChessEngine (P M : Type) where
  init : P
  is_game_over : P → Bool
  is_checkmate : P → Bool
  turn : P → Bool
  legal_moves : P → List M
  san : P → M → String
  parse_san : P → String → Option M
  push : P → M → P

/-- The `Game` dataclass of `src/src/arena.py`. -/
structure Game where
  white : ModelConfig
  black : ModelConfig
  moves : List String := []
  reasonings : List String := []
  result : ℚ := 1/2
deriving DecidableEq, Repr

/-- The `while not board.is_game_over()` loop of `League.play_game`, with
explicit fuel (`none` on fuel exhaustion or when `get_move` raises).
`resp n` / `seeds n` are the remote-response stream and random seed consumed
by the `get_move` call that produces the n-th move; returns the accumulated
moves, reasonings and the terminal position. -/
def playGameLoop (e : ChessEngine P M) (strf : P → String) (maxRetries : Nat)
    (resp : Nat → Nat → String × String) (seeds : Nat → Nat) :
    Nat → P → String → List String → List String →
    Option (List String × List String × P)
  | 0, p, _, mvs, rsns => if e.is_game_over p then some (mvs, rsns, p) else none
  | fuel + 1, p, hist, mvs, rsns =>
      if e.is_game_over p then some (mvs, rsns, p)
      else
        match get_move (e.legal_moves p) (e.parse_san p) (strf p) hist maxRetries
            (resp mvs.length) (seeds mvs.length) with
        | none => none
        | some (mv, reasoning) =>
            let sanStr := e.san p mv
            let mvs2 := mvs ++ [sanStr]
            let rsns2 := rsns ++ [reasoning]
            let moveNum := (mvs2.length + 1) / 2
            let hist2 :=
              if e.turn p then hist ++ toString moveNum ++ ". " ++ sanStr ++ " "
              else hist ++ sanStr ++ " "
            playGameLoop e strf maxRetries resp seeds fuel (e.push p mv) hist2 mvs2 rsns2

/-- `League.play_game` (`src/src/arena.py`): plays the loop from the initial
position and finalizes the game result — the `Game` default `0.5` overridden
by `0.0`/`1.0` when the final position is checkmate, by side to move. -/
def play_game (e : ChessEngine P M) (strf : P → String) (maxRetries : Nat)
    (resp : Nat → Nat → String × String) (seeds : Nat → Nat) (fuel : Nat)
    (white black : ModelConfig) : Option Game :=
  match playGameLoop e strf maxRetries resp seeds fuel e.init "" [] [] with
  | none => none
  | some (mvs, rsns, pF) =>
      some { white := white, black := black, moves := mvs, reasonings := rsns,
             result := if e.is_checkmate pF then (if e.turn pF then 0 else 1)
                       else 1/2 }

/-! ## EloCalculator (`src/src/arena.py`), over `ℝ` -/

namespace EloCalculator

/-- `EloCalculator.calculate_rating_change` of `src/src/arena.py`. -/
noncomputable def calculate_rating_change
    (player_rating opponent_rating actual_score : ℝ) (k_factor : ℝ := 32) : ℝ :=
  let expected_score := 1 / (1 + (10 : ℝ) ^ ((opponent_rating - player_rating) / 400))
  k_factor * (actual_score - expected_score)

/-- `EloCalculator.update_ratings` of `src/src/arena.py`. -/
noncomputable def update_ratings
    (white_rating black_rating result_score : ℝ) (k_factor : ℝ := 32) : ℝ × ℝ :=
  let white_score := result_score
  let black_score := 1 - result_score
  let white_change := calculate_rating_change white_rating black_rating white_score k_factor
  let black_change := calculate_rating_change black_rating white_rating black_score k_factor
  (white_rating + white_change, black_rating + black_change)

end EloCalculator

/-! ## League.run (`src/src/arena.py`)

The in-place mutation of each `ModelConfig.elo` is translated to explicit
state passing: a map from player label to current rating.  `play_game` is
abstracted as an oracle producing, per game index and pair of configs, the
move list, the rationale list and the numeric result; the `Game` record is
assembled exactly as `play_game` assembles it (white/black fields are the
configs passed in). -/

/-- `itertools.combinations(l, 2)`, in the same order. -/
def combinations2 : List α → List (α × α)
  | [] => []
  | x :: xs => xs.map (fun y => (x, y)) ++ combinations2 xs

/-- League state threaded through `run`: label-indexed Elo ratings,
`self.games`, and `self.completed_games` (the Python set, as a list). -/
structure RunState where
  elos : String → ℚ
  games : List Game
  completed : List (String × String)

/-- Functional update of the label-indexed rating map. -/
def setElo (f : String → ℚ) (l : String) (v : ℚ) : String → ℚ :=
  fun x => if x = l then v else f x

/-- `{ c with elo := v }`: the config as seen at a point in the run, its
rating field holding the current value. -/
def withElo (c : ModelConfig) (v : ℚ) : ModelConfig := { c with elo := v }

/-- The `Game` record a `League.run` iteration produces for white `w` and
black `b` at state `st`: the configs passed to `play_game` carry the current
ratings, and `pg n w b` is the `(moves, reasonings, result)` outcome of the
`play_game` call for the n-th game of the run. -/
def runGameOf (pg : Nat → ModelConfig → ModelConfig → List String × List String × ℚ)
    (st : RunState) (w b : ModelConfig) : Game :=
  { white := withElo w (st.elos w.label),
    black := withElo b (st.elos b.label),
    moves := (pg st.games.length (withElo w (st.elos w.label)) (withElo b (st.elos b.label))).1,
    reasonings := (pg st.games.length (withElo w (st.elos w.label)) (withElo b (st.elos b.label))).2.1,
    result := (pg st.games.length (withElo w (st.elos w.label)) (withElo b (st.elos b.label))).2.2 }

/-- One guarded half of a `League.run` iteration: if the directed label pair
is not in `completed_games`, play the game, append it, update both ratings
(`upd` standing for `EloCalculator.update_ratings` on floats), and add the
pair to `completed_games`. -/
def runHalf (pg : Nat → ModelConfig → ModelConfig → List String × List String × ℚ)
    (upd : ℚ → ℚ → ℚ → ℚ × ℚ) (st : RunState) (w b : ModelConfig) : RunState :=
  if (w.label, b.label) ∈ st.completed then st
  else
    let g := runGameOf pg st w b
    let newRatings := upd (st.elos w.label) (st.elos b.label) g.result
    { elos := setElo (setElo st.elos w.label newRatings.1) b.label newRatings.2,
      games := st.games ++ [g],
      completed := st.completed ++ [(w.label, b.label)] }

/-- One `League.run` iteration over a `combinations` pair: the
`random.random() < 0.5` coin picks the first color assignment, then both
directed assignments are attempted in turn. -/
def runPair (pg : Nat → ModelConfig → ModelConfig → List String × List String × ℚ)
    (upd : ℚ → ℚ → ℚ → ℚ × ℚ) (st : RunState) (p1 p2 : ModelConfig)
    (coin : Bool) : RunState :=
  let wb := if coin then (p1, p2) else (p2, p1)
  runHalf pg upd (runHalf pg upd st wb.1 wb.2) wb.2 wb.1

/-- The `for p1, p2 in combinations(self.players, 2)` loop of `League.run`,
with the pair index threading the coin stream. -/
def runCombs (pg : Nat → ModelConfig → ModelConfig → List String × List String × ℚ)
    (upd : ℚ → ℚ → ℚ → ℚ × ℚ) (coins : Nat → Bool) :
    List (ModelConfig × ModelConfig) → Nat → RunState → RunState
  | [], _, st => st
  | pr :: rest, i, st =>
      runCombs pg upd coins rest (i + 1) (runPair pg upd st pr.1 pr.2 (coins i))

/-- `League.run` (`src/src/arena.py`), from an arbitrary starting state
(fresh or reloaded via `load_state`). -/
def League.run (players : List ModelConfig)
    (pg : Nat → ModelConfig → ModelConfig → List String × List String × ℚ)
    (upd : ℚ → ℚ → ℚ → ℚ × ℚ) (coins : Nat → Bool) (st : RunState) : RunState :=
  runCombs pg upd coins (combinations2 players) 0 st

/-- The `(white.label, black.label)` pairs of a list of games. -/
def labelPairs (gs : List Game) : List (String × String) :=
  gs.map (fun g => (g.white.label, g.black.label))

/-- Both directed label assignments of one unordered pair. -/
def pairTwo (p1 p2 : ModelConfig) : List (String × String) :=
  [(p1.label, p2.label), (p2.label, p1.label)]

/-- All directed label assignments of the double round-robin over a pair
list. -/
def schedulePairs : List (ModelConfig × ModelConfig) → List (String × String)
  | [] => []
  | pr :: rest => pairTwo pr.1 pr.2 ++ schedulePairs rest

/-! ## Persistence (`src/src/arena.py`) -/

/-- The serialized player record of `league_state.json`. -/
structure PlayerDict where
  provider : String
  api_name : String
  label : String
  instructions : String
  is_reasoning : Bool
  is_COT : Bool
  elo : ℚ
  max_tokens : Nat
  thinking_effort : String
deriving DecidableEq, Repr

/-- Modelled from the spec: `ModelConfig.to_dict` is called by
`League.save_state` and `League.save_configs` but is not defined anywhere in
the repository sources; per the spec the persisted player record carries the
provider id, remote model id, label, instructions, reasoning/CoT flags,
rating, and token/effort budget. -/
def ModelConfig.to_dict (c : ModelConfig) : PlayerDict :=
  { provider := c.provider.value, api_name := c.api_name, label := c.label,
    instructions := c.instructions, is_reasoning := c.is_reasoning,
    is_COT := c.is_COT, elo := c.elo, max_tokens := c.max_tokens,
    thinking_effort := c.thinking_effort }

/-- The serialized game record written by `Game.to_dict`. -/
structure GameDict where
  white_label : String
  black_label : String
  moves : List String
  reasonings : List String
  result : ℚ
deriving DecidableEq, Repr

/-- `Game.to_dict` (`src/src/arena.py`). -/
def Game.to_dict (g : Game) : GameDict :=
  { white_label := g.white.label, black_label := g.black.label,
    moves := g.moves, reasonings := g.reasonings, result := g.result }

/-- The in-memory `League` aggregate that `save_state` serializes. -/
structure LeagueData where
  players : List ModelConfig
  max_retries : Nat
  games : List Game
  completed_games : List (String × String)
deriving DecidableEq, Repr

/-- The `league_state.json` document. -/
structure LeagueSaved where
  players : List PlayerDict
  games : List GameDict
  completed_games : List (String × String)
  max_retries : Nat
deriving DecidableEq, Repr

/-- `League.save_state` (`src/src/arena.py`). -/
def League.save_state (lg : LeagueData) : LeagueSaved :=
  { players := lg.players.map ModelConfig.to_dict,
    games := lg.games.map Game.to_dict,
    completed_games := lg.completed_games,
    max_retries := lg.max_retries }

/-- The `player_map` dict built by `League.load_state`: successive
`player_map[player.label] = player` writes, so the last player with a given
label wins. -/
def playerMapLookup (ps : List ModelConfig) (l : String) : Option ModelConfig :=
  ps.foldl (fun acc p => if p.label = l then some p else acc) none

/-- `Game.from_dict` (`src/src/arena.py`): `none` models the `KeyError` on a
label absent from `player_map`. -/
def Game.from_dict (d : GameDict) (pmap : String → Option ModelConfig) : Option Game :=
  match pmap d.white_label, pmap d.black_label with
  | some w, some b =>
      some { white := w, black := b, moves := d.moves,
             reasonings := d.reasonings, result := d.result }
  | _, _ => none

/-- Effectful list map over `Option`, propagating the first failure. -/
def optionMap (f : α → Option β) : List α → Option (List β)
  | [] => some []
  | x :: xs =>
      match f x, optionMap f xs with
      | some y, some ys => some (y :: ys)
      | _, _ => none

/-- The `ModelConfig(...)` reconstruction in `League.load_state`: provider
looked up by enum value, `max_tokens` and `thinking_effort` NOT read from the
record (they take the dataclass defaults 2000 / "medium"), then
`__post_init__` runs. -/
def loadPlayer (cfg : PlayerDict) : Option ModelConfig :=
  match ProviderType.ofValue cfg.provider with
  | none => none
  | some pv =>
      match ModelConfig.postInit
          { provider := pv, api_name := cfg.api_name, label := cfg.label,
            instructions := cfg.instructions, is_reasoning := cfg.is_reasoning,
            is_COT := cfg.is_COT, elo := cfg.elo,
            max_tokens := 2000, thinking_effort := "medium" } with
      | Except.ok c => some c
      | Except.error _ => none

/-- `League.load_state` (`src/src/arena.py`): rebuild the players, resolve
each stored game's white/black through `player_map`, restore the completed
set and the retry budget. -/
def League.load_state (s : LeagueSaved) : Option LeagueData :=
  match optionMap loadPlayer s.players with
  | none => none
  | some players =>
      match optionMap (fun gd => Game.from_dict gd (playerMapLookup players)) s.games with
      | none => none
      | some games =>
          some { players := players, max_retries := s.max_retries,
                 games := games, completed_games := s.completed_games }

/-! ## Export: `Game.to_pgn` (`src/src/arena.py`) -/

/-- Python `int()` truncation toward zero on a float, modelled on `ℚ`. -/
def truncInt (q : ℚ) : ℤ :=
  if q < 0 then -(-q).floor else q.floor

/-- Python list indexing `l[i]`, including negative-index wrap-around;
`none` models the `IndexError`. -/
def pyGet (l : List α) (i : ℤ) : Option α :=
  if 0 ≤ i then l.get? i.toNat
  else if (-i).toNat ≤ l.length then l.get? (l.length - (-i).toNat)
  else none

/-- The header block assembled by `Game.to_pgn`; `date` abstracts
`datetime.now().strftime(...)`. -/
structure PGNHeaders where
  date : String
  whiteName : String
  blackName : String
  whiteEloStr : String
  blackEloStr : String
  resultCode : String
deriving DecidableEq, Repr

/-- The exported document: headers plus the mainline nodes, each a move with
an optional commentary string (`node.comment`). -/
structure PGNDoc (M : Type) where
  headers : PGNHeaders
  nodes : List (M × Option String)
deriving DecidableEq

/-- The per-move comment attachment rule of `Game.to_pgn`
(`if reasoning and reasoning != 'No reasoning'`). -/
def pgnComment (reasoning : String) : Option String :=
  if reasoning ≠ "" ∧ reasoning ≠ "No reasoning" then some reasoning else none

/-- The `for san, reasoning in zip(...)` replay loop of `Game.to_pgn`:
parse each SAN against the current position, attach the comment per
`pgnComment`, push; `none` models the parse exception. -/
def pgnNodes (e : ChessEngine P M) :
    P → List (String × String) → Option (List (M × Option String))
  | _, [] => some []
  | p, (sanStr, reasoning) :: rest =>
      match e.parse_san p sanStr with
      | none => none
      | some mv =>
          match pgnNodes e (e.push p mv) rest with
          | none => none
          | some ns => some ((mv, pgnComment reasoning) :: ns)

/-- `Game.to_pgn` (`src/src/arena.py`): headers (including the result code
`["0-1", "1/2-1/2", "1-0"][int(self.result * 2)]`) and the replayed,
optionally commented move list. -/
def Game.to_pgn (e : ChessEngine P M) (today : String) (g : Game) :
    Option (PGNDoc M) :=
  match pyGet ["0-1", "1/2-1/2", "1-0"] (truncInt (g.result * 2)) with
  | none => none
  | some rc =>
      match pgnNodes e e.init (g.moves.zip g.reasonings) with
      | none => none
      | some ns =>
          some { headers := { date := today, whiteName := g.white.label,
                              blackName := g.black.label,
                              whiteEloStr := toString (truncInt g.white.elo),
                              blackEloStr := toString (truncInt g.black.elo),
                              resultCode := rc },
                 nodes := ns }

/-! ## Provider rationale selection (`src/src/models.py`)

Only the pure post-processing of each provider's `call` is embedded: given
the configuration mode, the parsed structured response's optional
`reasoning` field and the extended-thinking channel content, which rationale
string is returned. -/

/-- `OpenAIProvider.call` rationale selection (`src/src/models.py` line 106);
`summary` abstracts `response.reasoning.summary`. -/
def openaiRationale (c : ModelConfig) (parsedReasoning : String)
    (summary : String) : String :=
  if c.is_COT then parsedReasoning
  else if c.is_reasoning then summary
  else "No reasoning"

/-- `AnthropicProvider.call` rationale selection (`src/src/models.py` lines
149-153): the CoT field, else the concatenated thinking blocks, else the
literal string "None". -/
def anthropicRationale (c : ModelConfig) (parsedReasoning : String)
    (thinkingBlocks : List String) : String :=
  if c.is_COT then parsedReasoning
  else if c.is_reasoning then String.join thinkingBlocks
  else "None"

/-- `GeminiProvider.call` rationale selection (`src/src/models.py` lines
205-209): the CoT field, else non-empty thought content, else
"No reasoning". -/
def geminiRationale (c : ModelConfig) (parsedReasoning : String)
    (thoughtContent : String) : String :=
  if c.is_COT then parsedReasoning
  else if c.is_reasoning ∧ thoughtContent ≠ "" then thoughtContent
  else "No reasoning"

/-! ## Theorems -/

/-- C3: `calculate_rating_change(p, o, s, k)` is exactly
`k * (s - 1 / (1 + 10^((o - p)/400)))`, and `update_ratings(w, b, s, k)`
is `(w + change(w, b, s, k), b + change(b, w, 1 - s, k))`, treating `s` as
white's actual score and `1 - s` as black's; both are total functions. -/
theorem elo_rating_arithmetic :
    (∀ p o s k : ℝ, EloCalculator.calculate_rating_change p o s k =
      k * (s - 1 / (1 + (10 : ℝ) ^ ((o - p) / 400)))) ∧
    (∀ w b s k : ℝ, EloCalculator.update_ratings w b s k =
      (w + EloCalculator.calculate_rating_change w b s k,
       b + EloCalculator.calculate_rating_change b w (1 - s) k)) :=
  ⟨fun _ _ _ _ => rfl, fun _ _ _ _ => rfl⟩

/-- C9: constructing a `ModelConfig` with both `is_reasoning` and `is_COT`
raises at `__post_init__` time; with at most one of the two flags set the
construction succeeds, producing a config that still has at most one flag
set (so no config reaching game play has both).  The same holds for the
older `ModelConfig` of `src/models.py`. -/
theorem config_xor_rejection :
    (∀ c : ModelConfig,
      (c.is_reasoning = true ∧ c.is_COT = true →
        ModelConfig.postInit c = Except.error "Models must be reasoning XOR CoT") ∧
      (¬(c.is_reasoning = true ∧ c.is_COT = true) →
        ∃ c2, ModelConfig.postInit c = Except.ok c2 ∧
          c2.is_reasoning = c.is_reasoning ∧ c2.is_COT = c.is_COT ∧
          ¬(c2.is_reasoning = true ∧ c2.is_COT = true))) ∧
    (∀ c0 : ModelConfigV0,
      (c0.is_reasoning = true ∧ c0.is_COT = true →
        ModelConfigV0.postInit c0 = Except.error "Models must be reasoning XOR CoT") ∧
      (¬(c0.is_reasoning = true ∧ c0.is_COT = true) →
        ModelConfigV0.postInit c0 = Except.ok c0)) := by
  constructor
  · intro c
    constructor
    · rintro ⟨h1, h2⟩
      simp [ModelConfig.postInit, h1, h2]
    · intro h
      have hb : (c.is_COT && c.is_reasoning) = false := by
        cases hc : c.is_COT <;> cases hr : c.is_reasoning <;> simp_all
      unfold ModelConfig.postInit
      rw [hb]
      simp only [Bool.false_eq_true, if_false]
      split_ifs with hp hm hM
      · exact ⟨_, rfl, rfl, rfl, h⟩
      · exact ⟨_, rfl, rfl, rfl, h⟩
      · exact ⟨_, rfl, rfl, rfl, h⟩
      · exact ⟨_, rfl, rfl, rfl, h⟩
  · intro c0
    constructor
    · rintro ⟨h1, h2⟩
      simp [ModelConfigV0.postInit, h1, h2]
    · intro h
      have hb : (c0.is_COT && c0.is_reasoning) = false := by
        cases hc : c0.is_COT <;> cases hr : c0.is_reasoning <;> simp_all
      simp [ModelConfigV0.postInit, hb]

/-- A config with both mode flags set (used in witnesses). -/
def cfgBoth : ModelConfig :=
  { provider := .ANTHROPIC, api_name := "claude", label := "both",
    instructions := "i", is_reasoning := true, is_COT := true }

/-- A well-formed config with a single mode flag set. -/
def cfgReasoning : ModelConfig :=
  { provider := .ANTHROPIC, api_name := "claude", label := "r",
    instructions := "i", is_reasoning := true, is_COT := false }

/-- A second well-formed config, plain mode. -/
def cfgPlain : ModelConfig :=
  { provider := .GEMINI, api_name := "gemini", label := "p",
    instructions := "i", is_reasoning := false, is_COT := false }

/-- Witness for C9 at concrete configs. -/
theorem config_xor_rejection_witness :
    ModelConfig.postInit cfgBoth = Except.error "Models must be reasoning XOR CoT" ∧
    ∃ c2, ModelConfig.postInit cfgReasoning = Except.ok c2 ∧
      c2.is_reasoning = cfgReasoning.is_reasoning ∧ c2.is_COT = cfgReasoning.is_COT ∧
      ¬(c2.is_reasoning = true ∧ c2.is_COT = true) :=
  ⟨(config_xor_rejection.1 cfgBoth).1 ⟨rfl, rfl⟩,
   (config_xor_rejection.1 cfgReasoning).2 (by simp [cfgReasoning])⟩

/-- `random.choice` on a non-empty list returns an element of it. -/
theorem randomChoice_mem (l : List α) (seed : Nat) (h : l ≠ []) :
    ∃ a, randomChoice l seed = some a ∧ a ∈ l := by
  have hl : 0 < l.length := List.length_pos.mpr h
  have hm : seed % l.length < l.length := Nat.mod_lt _ hl
  exact ⟨l.get ⟨_, hm⟩, by simp [randomChoice, List.get?_eq_get hm],
    List.get_mem _ _ _⟩

/-- The retry loop always yields a legal move when the position has one and
the parser only returns legal moves. -/
theorem getMoveLoop_legal (legal : List M) (parse : String → Option M)
    (hpl : ∀ s m, parse s = some m → m ∈ legal) (hne : legal ≠ [])
    (boardStr hist : String) (responses : Nat → String × String) (seed : Nat) :
    ∀ (fuel i : Nat) (failed : List String),
      ∃ mv r, (getMoveLoop legal parse boardStr hist responses seed fuel i failed).1 =
        some (mv, r) ∧ mv ∈ legal := by
  intro fuel
  induction fuel with
  | zero =>
      intro i failed
      obtain ⟨a, ha, ham⟩ := randomChoice_mem legal seed hne
      exact ⟨a, fallbackRationale failed, by simp [getMoveLoop, ha], ham⟩
  | succ n ih =>
      intro i failed
      cases hp : parse (responses i).1 with
      | some m =>
          exact ⟨m, (responses i).2, by simp [getMoveLoop, hp], hpl _ _ hp⟩
      | none =>
          obtain ⟨mv, r, hmv, hm⟩ := ih (i + 1) (failed ++ [(responses i).1])
          exact ⟨mv, r, by simp only [getMoveLoop, hp]; exact hmv, hm⟩

/-- When every remaining response fails to parse, the loop degrades to the
random fallback carrying all failed attempt strings in order. -/
theorem getMoveLoop_allFail (legal : List M) (parse : String → Option M)
    (boardStr hist : String) (responses : Nat → String × String) (seed : Nat) :
    ∀ (fuel i : Nat) (failed : List String),
      (∀ j, j < fuel → parse (responses (i + j)).1 = none) →
      (getMoveLoop legal parse boardStr hist responses seed fuel i failed).1 =
        (randomChoice legal seed).map
          (fun m => (m, fallbackRationale
            (failed ++ (List.range fuel).map (fun j => (responses (i + j)).1)))) := by
  intro fuel
  induction fuel with
  | zero => intro i failed _; simp [getMoveLoop]
  | succ n ih =>
      intro i failed hf
      have h0 : parse (responses i).1 = none := by
        have := hf 0 (Nat.succ_pos n)
        simpa using this
      have harith : ∀ j : Nat, i + 1 + j = i + (j + 1) := fun j => by omega
      have hlist : (failed ++ [(responses i).1]) ++
            (List.range n).map (fun j => (responses (i + 1 + j)).1) =
          failed ++ (List.range (n + 1)).map (fun j => (responses (i + j)).1) := by
        rw [List.range_succ_eq_map, List.append_assoc]
        simp [List.map_map, Function.comp, harith]
      simp only [getMoveLoop, h0]
      rw [ih (i + 1) (failed ++ [(responses i).1])
        (fun j hj => by rw [harith j]; exact hf (j + 1) (Nat.succ_lt_succ hj))]
      rw [hlist]

/-- C2: for a position with at least one legal move and a parser that only
returns legal moves, `get_move` always returns (never raises) a legal move,
for every response sequence; and when every one of the `max_retries`
responses fails to parse, the result is the `random.choice` fallback move
with the rationale naming the fallback and listing every failed attempt. -/
theorem move_source_totality (legal : List M) (parse : String → Option M)
    (hpl : ∀ s m, parse s = some m → m ∈ legal) (hne : legal ≠ [])
    (boardStr hist : String) (maxRetries : Nat)
    (responses : Nat → String × String) (seed : Nat) :
    (∃ mv r, get_move legal parse boardStr hist maxRetries responses seed =
        some (mv, r) ∧ mv ∈ legal) ∧
    ((∀ j, j < maxRetries → parse (responses j).1 = none) →
      ∃ mv, randomChoice legal seed = some mv ∧ mv ∈ legal ∧
        get_move legal parse boardStr hist maxRetries responses seed =
          some (mv, fallbackRationale
            ((List.range maxRetries).map (fun j => (responses j).1)))) := by
  constructor
  · exact getMoveLoop_legal legal parse hpl hne boardStr hist responses seed maxRetries 0 []
  · intro hf
    obtain ⟨a, ha, ham⟩ := randomChoice_mem legal seed hne
    refine ⟨a, ha, ham, ?_⟩
    unfold get_move
    rw [getMoveLoop_allFail legal parse boardStr hist responses seed maxRetries 0 []
      (fun j hj => by simpa using hf j hj)]
    simp [ha]

/-- Witness for C2: three illegal responses against a one-move position. -/
theorem move_source_totality_witness :
    ∃ mv r, get_move [5] (fun _ => (none : Option Nat)) "B" "H" 3
      (fun _ => ("Z9", "x")) 0 = some (mv, r) ∧ mv ∈ [5] :=
  (move_source_totality [5] (fun _ => (none : Option Nat))
    (fun _ _ hm => nomatch hm) (by simp) "B" "H" 3 (fun _ => ("Z9", "x")) 0).1

/-- The i-th context the retry loop sends, when attempts before it failed:
the starting context extended with exactly the failed attempt strings so
far, in order. -/
theorem getMoveLoop_ctx (legal : List M) (parse : String → Option M)
    (boardStr hist : String) (responses : Nat → String × String) (seed : Nat) :
    ∀ (i fuel i0 : Nat) (failed : List String), i < fuel →
      (∀ j, j < i → parse (responses (i0 + j)).1 = none) →
      (getMoveLoop legal parse boardStr hist responses seed fuel i0 failed).2.get? i =
        some (attemptContext boardStr hist
          (failed ++ (List.range i).map (fun j => (responses (i0 + j)).1))) := by
  intro i
  induction i with
  | zero =>
      intro fuel i0 failed hlt _
      cases fuel with
      | zero => exact absurd hlt (by omega)
      | succ n =>
          cases hp : parse (responses i0).1 with
          | some m => simp [getMoveLoop, hp]
          | none => simp [getMoveLoop, hp]
  | succ i' ih =>
      intro fuel i0 failed hlt hf
      cases fuel with
      | zero => exact absurd hlt (by omega)
      | succ n =>
          have h0 : parse (responses i0).1 = none := by
            have := hf 0 (Nat.succ_pos i')
            simpa using this
          have harith : ∀ j : Nat, i0 + 1 + j = i0 + (j + 1) := fun j => by omega
          have hrec := ih n (i0 + 1) (failed ++ [(responses i0).1])
            (by omega)
            (fun j hj => by rw [harith j]; exact hf (j + 1) (Nat.succ_lt_succ hj))
          have hlist : (failed ++ [(responses i0).1]) ++
                (List.range i').map (fun j => (responses (i0 + 1 + j)).1) =
              failed ++ (List.range (i' + 1)).map (fun j => (responses (i0 + j)).1) := by
            rw [List.range_succ_eq_map, List.append_assoc]
            simp [List.map_map, Function.comp, harith]
          simp only [getMoveLoop, h0]
          rw [List.get?_cons_succ]
          rw [hrec, hlist]

/-- C6: within one `get_move` invocation, the context sent on attempt `k+1`
is the base context extended with exactly the move strings rejected on
attempts `1..k`, newline-joined in rejection order; the context of the first
attempt carries no illegal-move list at all. -/
theorem retry_context_growth (legal : List M) (parse : String → Option M)
    (boardStr hist : String) (maxRetries : Nat)
    (responses : Nat → String × String) (seed : Nat) :
    (attemptContext boardStr hist [] =
      boardStr ++ "\n" ++ "Move history: \n" ++ hist) ∧
    (∀ i, i < maxRetries → (∀ j, j < i → parse (responses j).1 = none) →
      (getMoveContexts legal parse boardStr hist maxRetries responses seed).get? i =
        some (attemptContext boardStr hist
          ((List.range i).map (fun j => (responses j).1)))) := by
  constructor
  · rfl
  · intro i hi hf
    have := getMoveLoop_ctx legal parse boardStr hist responses seed i maxRetries 0 []
      hi (fun j hj => by simpa using hf j hj)
    simpa [getMoveContexts] using this

/-- Witness for C6: the context of the third attempt after two rejections. -/
theorem retry_context_growth_witness :
    (getMoveContexts [5] (fun _ => (none : Option Nat)) "B" "H" 3
      (fun _ => ("Z9", "x")) 0).get? 2 =
      some (attemptContext "B" "H"
        ((List.range 2).map (fun j => ((fun _ => ("Z9", "x")) j |> Prod.fst)))) :=
  (retry_context_growth [5] (fun _ => (none : Option Nat)) "B" "H" 3
    (fun _ => ("Z9", "x")) 0).2 2 (by omega) (fun _ _ => rfl)

/-- The retry loop makes at most `fuel` remote calls. -/
theorem getMoveLoop_trace_len (legal : List M) (parse : String → Option M)
    (boardStr hist : String) (responses : Nat → String × String) (seed : Nat) :
    ∀ (fuel i : Nat) (failed : List String),
      (getMoveLoop legal parse boardStr hist responses seed fuel i failed).2.length ≤ fuel := by
  intro fuel
  induction fuel with
  | zero => intro i failed; simp [getMoveLoop]
  | succ n ih =>
      intro i failed
      cases hp : parse (responses i).1 with
      | some m => simp [getMoveLoop, hp]
      | none =>
          simp only [getMoveLoop, hp, List.length_cons]
          exact Nat.succ_le_succ (ih (i + 1) (failed ++ [(responses i).1]))

/-- C10: a single `get_move` invocation makes at most `max_retries` remote
calls; with `max_retries = 0` it makes none and immediately returns the
`random.choice` fallback move with the fallback rationale over an empty
failed-attempts list. -/
theorem remote_call_budget (legal : List M) (parse : String → Option M)
    (hne : legal ≠ []) (boardStr hist : String) (maxRetries : Nat)
    (responses : Nat → String × String) (seed : Nat) :
    (getMoveContexts legal parse boardStr hist maxRetries responses seed).length ≤ maxRetries ∧
    (maxRetries = 0 →
      ∃ mv, randomChoice legal seed = some mv ∧ mv ∈ legal ∧
        get_move legal parse boardStr hist maxRetries responses seed =
          some (mv, fallbackRationale []) ∧
        getMoveContexts legal parse boardStr hist maxRetries responses seed = []) := by
  constructor
  · exact getMoveLoop_trace_len legal parse boardStr hist responses seed maxRetries 0 []
  · intro h0
    subst h0
    obtain ⟨a, ha, ham⟩ := randomChoice_mem legal seed hne
    exact ⟨a, ha, ham, by simp [get_move, getMoveLoop, ha], rfl⟩

/-- Witness for C10: a zero retry budget performs no remote call. -/
theorem remote_call_budget_witness :
    (getMoveContexts [5] (fun _ => (none : Option Nat)) "B" "H" 0
      (fun _ => ("Z9", "x")) 0).length ≤ 0 ∧
    (0 = 0 →
      ∃ mv, randomChoice [5] 0 = some mv ∧ mv ∈ [5] ∧
        get_move [5] (fun _ => (none : Option Nat)) "B" "H" 0
          (fun _ => ("Z9", "x")) 0 = some (mv, fallbackRationale []) ∧
        getMoveContexts [5] (fun _ => (none : Option Nat)) "B" "H" 0
          (fun _ => ("Z9", "x")) 0 = []) :=
  remote_call_budget [5] (fun _ => (none : Option Nat)) (by simp) "B" "H" 0
    (fun _ => ("Z9", "x")) 0

/-- When the game loop exits normally, the exit position satisfies the
game-over predicate. -/
theorem playGameLoop_terminal (e : ChessEngine P M) (strf : P → String)
    (maxR : Nat) (resp : Nat → Nat → String × String) (seeds : Nat → Nat) :
    ∀ (fuel : Nat) (p : P) (hist : String) (mvs rsns : List String)
      (out : List String × List String × P),
      playGameLoop e strf maxR resp seeds fuel p hist mvs rsns = some out →
      e.is_game_over out.2.2 = true := by
  intro fuel
  induction fuel with
  | zero =>
      intro p hist mvs rsns out h
      by_cases hg : e.is_game_over p
      · simp only [playGameLoop, hg, if_true] at h
        cases h
        exact hg
      · simp [playGameLoop, hg] at h
  | succ n ih =>
      intro p hist mvs rsns out h
      by_cases hg : e.is_game_over p
      · simp only [playGameLoop, hg, if_true] at h
        cases h
        exact hg
      · simp only [playGameLoop, hg, if_false] at h
        cases hm : get_move (e.legal_moves p) (e.parse_san p) (strf p) hist maxR
            (resp mvs.length) (seeds mvs.length) with
        | none => rw [hm] at h; cases h
        | some mr =>
            rw [hm] at h
            exact ih _ _ _ _ _ h

/-- Each loop iteration appends exactly one move and one rationale, so the
two accumulators keep equal lengths. -/
theorem playGameLoop_parallel (e : ChessEngine P M) (strf : P → String)
    (maxR : Nat) (resp : Nat → Nat → String × String) (seeds : Nat → Nat) :
    ∀ (fuel : Nat) (p : P) (hist : String) (mvs rsns : List String)
      (out : List String × List String × P),
      playGameLoop e strf maxR resp seeds fuel p hist mvs rsns = some out →
      mvs.length = rsns.length →
      out.1.length = out.2.1.length := by
  intro fuel
  induction fuel with
  | zero =>
      intro p hist mvs rsns out h hlen
      by_cases hg : e.is_game_over p
      · simp only [playGameLoop, hg, if_true] at h
        cases h
        exact hlen
      · simp [playGameLoop, hg] at h
  | succ n ih =>
      intro p hist mvs rsns out h hlen
      by_cases hg : e.is_game_over p
      · simp only [playGameLoop, hg, if_true] at h
        cases h
        exact hlen
      · simp only [playGameLoop, hg, if_false] at h
        cases hm : get_move (e.legal_moves p) (e.parse_san p) (strf p) hist maxR
            (resp mvs.length) (seeds mvs.length) with
        | none => rw [hm] at h; cases h
        | some mr =>
            rw [hm] at h
            exact ih _ _ _ _ _ h (by simp [hlen])

/-- C7: every `Game` record `play_game` produces has as many rationale
strings as moves, the loop having appended exactly one of each per
iteration. -/
theorem game_record_parallel (e : ChessEngine P M) (strf : P → String)
    (maxR : Nat) (resp : Nat → Nat → String × String) (seeds : Nat → Nat)
    (fuel : Nat) (white black : ModelConfig) (g : Game)
    (h : play_game e strf maxR resp seeds fuel white black = some g) :
    g.moves.length = g.reasonings.length := by
  unfold play_game at h
  cases hl : playGameLoop e strf maxR resp seeds fuel e.init "" [] [] with
  | none => rw [hl] at h; cases h
  | some out =>
      rw [hl] at h
      cases h
      exact playGameLoop_parallel e strf maxR resp seeds fuel e.init "" [] [] out hl rfl

/-- A trivial rules engine whose initial position is already terminal
without checkmate (used by witnesses). -/
def unitEngine : ChessEngine Unit Unit :=
  { init := (), is_game_over := fun _ => true, is_checkmate := fun _ => false,
    turn := fun _ => true, legal_moves := fun _ => [()],
    san := fun _ _ => "a", parse_san := fun _ _ => some (),
    push := fun _ _ => () }

/-- Witness for C7 on the trivial engine. -/
theorem game_record_parallel_witness :
    ({ white := cfgReasoning, black := cfgPlain, moves := [],
       reasonings := [], result := 1/2 } : Game).moves.length =
    ({ white := cfgReasoning, black := cfgPlain, moves := [],
       reasonings := [], result := 1/2 } : Game).reasonings.length :=
  game_record_parallel unitEngine (fun _ => "") 3 (fun _ _ => ("", ""))
    (fun _ => 0) 1 cfgReasoning cfgPlain _ rfl

/-- C4: when `play_game` finishes, the final position is terminal and the
recorded result credits the side not to move on checkmate — `1.0` for a
checkmate with black to move, `0.0` for a checkmate with white to move —
and is `0.5` for every other terminal condition. -/
theorem terminal_result_assignment (e : ChessEngine P M) (strf : P → String)
    (maxR : Nat) (resp : Nat → Nat → String × String) (seeds : Nat → Nat)
    (fuel : Nat) (white black : ModelConfig) (g : Game)
    (h : play_game e strf maxR resp seeds fuel white black = some g) :
    ∃ pF : P, e.is_game_over pF = true ∧
      (e.is_checkmate pF = true → e.turn pF = false → g.result = 1) ∧
      (e.is_checkmate pF = true → e.turn pF = true → g.result = 0) ∧
      (e.is_checkmate pF = false → g.result = 1/2) := by
  unfold play_game at h
  cases hl : playGameLoop e strf maxR resp seeds fuel e.init "" [] [] with
  | none => rw [hl] at h; cases h
  | some out =>
      rw [hl] at h
      cases h
      refine ⟨out.2.2, playGameLoop_terminal e strf maxR resp seeds fuel e.init "" [] [] out hl,
        ?_, ?_, ?_⟩
      · intro hc ht; simp [hc, ht]
      · intro hc ht; simp [hc, ht]
      · intro hc; simp [hc]

/-- Witness for C4 on the trivial engine: a non-checkmate terminal position
records result `0.5`. -/
theorem terminal_result_assignment_witness :
    ∃ pF : Unit, unitEngine.is_game_over pF = true ∧
      (unitEngine.is_checkmate pF = true → unitEngine.turn pF = false →
        ({ white := cfgReasoning, black := cfgPlain, moves := [],
           reasonings := [], result := 1/2 } : Game).result = 1) ∧
      (unitEngine.is_checkmate pF = true → unitEngine.turn pF = true →
        ({ white := cfgReasoning, black := cfgPlain, moves := [],
           reasonings := [], result := 1/2 } : Game).result = 0) ∧
      (unitEngine.is_checkmate pF = false →
        ({ white := cfgReasoning, black := cfgPlain, moves := [],
           reasonings := [], result := 1/2 } : Game).result = 1/2) :=
  terminal_result_assignment unitEngine (fun _ => "") 3 (fun _ _ => ("", ""))
    (fun _ => 0) 1 cfgReasoning cfgPlain _ rfl

/-- What a segment of `League.run` guarantees relative to a schedule of
directed label pairs: the games it appends carry pairwise-distinct
`(white label, black label)` pairs, none already in the completed set, all
drawn from the schedule, every not-yet-completed schedule pair gets played,
and each played pair is appended to the completed set (in play order). -/
def RunSpec (sched : List (String × String)) (st st2 : RunState) : Prop :=
  ∃ gs : List Game,
    st2.games = st.games ++ gs ∧
    st2.completed = st.completed ++ labelPairs gs ∧
    (labelPairs gs).Nodup ∧
    (∀ pr ∈ labelPairs gs, pr ∉ st.completed) ∧
    (∀ pr ∈ labelPairs gs, pr ∈ sched) ∧
    (∀ pr ∈ sched, pr ∉ st.completed → pr ∈ labelPairs gs)

theorem labelPairs_append (gs1 gs2 : List Game) :
    labelPairs (gs1 ++ gs2) = labelPairs gs1 ++ labelPairs gs2 :=
  List.map_append _ _ _

theorem runspec_congr {s s2 : RunState} (h : RunSpec sched s s2)
    (hiff : ∀ pr, pr ∈ sched ↔ pr ∈ sched2) : RunSpec sched2 s s2 := by
  obtain ⟨gs, h1, h2, h3, h4, h5, h6⟩ := h
  exact ⟨gs, h1, h2, h3, h4, fun pr hpr => (hiff pr).1 (h5 pr hpr),
    fun pr hpr hn => h6 pr ((hiff pr).2 hpr) hn⟩

theorem runspec_trans {s s1 s2 : RunState} (ha : RunSpec scha s s1)
    (hb : RunSpec schb s1 s2) : RunSpec (scha ++ schb) s s2 := by
  obtain ⟨gs1, a1, a2, a3, a4, a5, a6⟩ := ha
  obtain ⟨gs2, b1, b2, b3, b4, b5, b6⟩ := hb
  refine ⟨gs1 ++ gs2, ?_, ?_, ?_, ?_, ?_, ?_⟩
  · rw [b1, a1, List.append_assoc]
  · rw [b2, a2, labelPairs_append, List.append_assoc]
  · rw [labelPairs_append, List.nodup_append]
    refine ⟨a3, b3, ?_⟩
    intro pr hpr1 hpr2
    have := b4 pr hpr2
    rw [a2] at this
    exact this (List.mem_append.mpr (Or.inr hpr1))
  · intro pr hpr
    rw [labelPairs_append] at hpr
    rcases List.mem_append.mp hpr with h | h
    · exact a4 pr h
    · have := b4 pr h
      rw [a2] at this
      exact fun hc => this (List.mem_append.mpr (Or.inl hc))
  · intro pr hpr
    rw [labelPairs_append] at hpr
    rcases List.mem_append.mp hpr with h | h
    · exact List.mem_append.mpr (Or.inl (a5 pr h))
    · exact List.mem_append.mpr (Or.inr (b5 pr h))
  · intro pr hpr hn
    rw [labelPairs_append]
    rcases List.mem_append.mp hpr with h | h
    · exact List.mem_append.mpr (Or.inl (a6 pr h hn))
    · by_cases hin : pr ∈ labelPairs gs1
      · exact List.mem_append.mpr (Or.inl hin)
      · refine List.mem_append.mpr (Or.inr (b6 pr h ?_))
        rw [a2]
        intro hc
        rcases List.mem_append.mp hc with hc | hc
        · exact hn hc
        · exact hin hc

/-- One guarded half of a run iteration satisfies `RunSpec` for its single
directed pair. -/
theorem runHalf_runspec (pg : Nat → ModelConfig → ModelConfig → List String × List String × ℚ)
    (upd : ℚ → ℚ → ℚ → ℚ × ℚ) (st : RunState) (w b : ModelConfig) :
    RunSpec [(w.label, b.label)] st (runHalf pg upd st w b) := by
  by_cases hmem : (w.label, b.label) ∈ st.completed
  · refine ⟨[], ?_, ?_, ?_, ?_, ?_, ?_⟩ <;>
      simp [runHalf, hmem, labelPairs]
  · refine ⟨[runGameOf pg st w b], ?_, ?_, ?_, ?_, ?_, ?_⟩ <;>
      simp [runHalf, hmem, labelPairs, runGameOf, withElo]

/-- A full run iteration over one `combinations` pair satisfies `RunSpec`
for its two directed assignments, whatever the coin says. -/
theorem runPair_runspec (pg : Nat → ModelConfig → ModelConfig → List String × List String × ℚ)
    (upd : ℚ → ℚ → ℚ → ℚ × ℚ) (st : RunState) (p1 p2 : ModelConfig) (coin : Bool) :
    RunSpec (pairTwo p1 p2) st (runPair pg upd st p1 p2 coin) := by
  cases coin with
  | true =>
      have h := runspec_trans (runHalf_runspec pg upd st p1 p2)
        (runHalf_runspec pg upd (runHalf pg upd st p1 p2) p2 p1)
      exact runspec_congr h (by intro pr; simp [pairTwo])
  | false =>
      have h := runspec_trans (runHalf_runspec pg upd st p2 p1)
        (runHalf_runspec pg upd (runHalf pg upd st p2 p1) p1 p2)
      exact runspec_congr h (by intro pr; simp [pairTwo]; tauto)

/-- The `combinations` loop of `League.run` satisfies `RunSpec` for the full
double-round-robin schedule of its pair list. -/
theorem runCombs_runspec (pg : Nat → ModelConfig → ModelConfig → List String × List String × ℚ)
    (upd : ℚ → ℚ → ℚ → ℚ × ℚ) (coins : Nat → Bool) :
    ∀ (l : List (ModelConfig × ModelConfig)) (i : Nat) (st : RunState),
      RunSpec (schedulePairs l) st (runCombs pg upd coins l i st) := by
  intro l
  induction l with
  | nil =>
      intro i st
      exact ⟨[], by simp [runCombs], by simp [runCombs, labelPairs],
        by simp [labelPairs], by simp [labelPairs], by simp [labelPairs],
        by simp [schedulePairs]⟩
  | cons pr rest ih =>
      intro i st
      exact runspec_trans (runPair_runspec pg upd st pr.1 pr.2 (coins i))
        (ih (i + 1) (runPair pg upd st pr.1 pr.2 (coins i)))

/-- C5: during any `League.run` — including one resumed from a state whose
completed set is already populated — a game with white `W` and black `B` is
played only when `(W.label, B.label)` is absent from the completed set at
that moment and the pair is recorded right after it, so the run appends no
duplicate `(white, black)` pair, never replays a completed pair, and plays
exactly the remaining directed color assignments of the double round-robin
over `combinations(players, 2)`. -/
theorem no_replay_of_completed_pairings (players : List ModelConfig)
    (pg : Nat → ModelConfig → ModelConfig → List String × List String × ℚ)
    (upd : ℚ → ℚ → ℚ → ℚ × ℚ) (coins : Nat → Bool) (st : RunState) :
    RunSpec (schedulePairs (combinations2 players)) st
      (League.run players pg upd coins st) :=
  runCombs_runspec pg upd coins (combinations2 players) 0 st

/-- Witness for C5: a two-player league resumed from an empty state. -/
theorem no_replay_of_completed_pairings_witness :
    RunSpec (schedulePairs (combinations2 [cfgReasoning, cfgPlain]))
      ⟨fun _ => 400, [], []⟩
      (League.run [cfgReasoning, cfgPlain] (fun _ _ _ => ([], [], 1/2))
        (fun a b _ => (a, b)) (fun _ => true) ⟨fun _ => 400, [], []⟩) :=
  no_replay_of_completed_pairings [cfgReasoning, cfgPlain]
    (fun _ _ _ => ([], [], 1/2)) (fun a b _ => (a, b)) (fun _ => true)
    ⟨fun _ => 400, [], []⟩

/-- A config whose token budget differs from the dataclass default. -/
def cfgBudget : ModelConfig :=
  { provider := .ANTHROPIC, api_name := "claude", label := "hb",
    instructions := "i", is_reasoning := true, is_COT := false,
    elo := 400, max_tokens := 5000, thinking_effort := "medium" }

/-- A one-player league holding `cfgBudget`. -/
def leagueBudget : LeagueData :=
  { players := [cfgBudget], max_retries := 3, games := [], completed_games := [] }

/-- C1: the persistence round-trip loses the token budget —
`League.load_state` never reads `max_tokens` or `thinking_effort` back, so
reloading the saved state of a league whose single player has
`max_tokens = 5000` yields a league that differs from the original: the
reloaded player's budget is the dataclass default 2000. -/
theorem persistence_roundtrip_budget_lost :
    League.load_state (League.save_state leagueBudget) ≠ some leagueBudget ∧
    (League.load_state (League.save_state leagueBudget)).map
      (fun lg => lg.players.map (fun p => p.max_tokens)) = some [2000] ∧
    leagueBudget.players.map (fun p => p.max_tokens) = [5000] := by
  refine ⟨?_, rfl, rfl⟩
  decide

/-! Supporting facts for the persistence layer: what the round-trip does
preserve. -/

/-- The projection `load_state ∘ save_state` actually applies to each
player: every field kept, the token/effort budget reset to the dataclass
defaults. -/
def resetBudget (c : ModelConfig) : ModelConfig :=
  { c with max_tokens := 2000, thinking_effort := "medium" }

theorem ofValue_value (p : ProviderType) : ProviderType.ofValue p.value = some p := by
  cases p <;> rfl

theorem loadPlayer_to_dict (c : ModelConfig)
    (h : ¬(c.is_reasoning = true ∧ c.is_COT = true)) :
    loadPlayer (ModelConfig.to_dict c) = some (resetBudget c) := by
  have hb : (c.is_COT && c.is_reasoning) = false := by
    cases hc : c.is_COT <;> cases hr : c.is_reasoning <;> simp_all
  by_cases hp : c.provider = ProviderType.OPENAI <;>
    simp [loadPlayer, ModelConfig.to_dict, ofValue_value, ModelConfig.postInit,
      hb, hp, resetBudget]

theorem optionMap_map (f : β → Option γ) (h : α → β) (l : List α) :
    optionMap f (l.map h) = optionMap (fun x => f (h x)) l := by
  induction l with
  | nil => rfl
  | cons x xs ih => simp [optionMap, ih]

theorem optionMap_eq_some (f : α → Option β) (g : α → β) (l : List α)
    (h : ∀ x ∈ l, f x = some (g x)) : optionMap f l = some (l.map g) := by
  induction l with
  | nil => rfl
  | cons x xs ih =>
      simp [optionMap, h x (List.mem_cons_self x xs),
        ih (fun y hy => h y (List.mem_cons_of_mem x hy))]

theorem playerMapLookup_aux_result (l : String) :
    ∀ (ps : List ModelConfig) (acc : Option ModelConfig) (q : ModelConfig),
      ps.foldl (fun acc p => if p.label = l then some p else acc) acc = some q →
      (q ∈ ps ∧ q.label = l) ∨ acc = some q := by
  intro ps
  induction ps with
  | nil => intro acc q h; exact Or.inr h
  | cons x xs ih =>
      intro acc q h
      simp only [List.foldl_cons] at h
      rcases ih _ _ h with ⟨hm, hl⟩ | hacc
      · exact Or.inl ⟨List.mem_cons_of_mem _ hm, hl⟩
      · by_cases hx : x.label = l
        · rw [if_pos hx] at hacc
          cases hacc
          exact Or.inl ⟨List.mem_cons_self _ _, hx⟩
        · rw [if_neg hx] at hacc
          exact Or.inr hacc

theorem playerMapLookup_mem (ps : List ModelConfig) (l : String) (q : ModelConfig)
    (h : playerMapLookup ps l = some q) : q ∈ ps ∧ q.label = l := by
  rcases playerMapLookup_aux_result l ps none q h with hq | hq
  · exact hq
  · cases hq

theorem playerMapLookup_aux_acc (l : String) :
    ∀ (ps : List ModelConfig) (acc : Option ModelConfig), acc.isSome →
      (ps.foldl (fun acc p => if p.label = l then some p else acc) acc).isSome := by
  intro ps
  induction ps with
  | nil => intro acc h; exact h
  | cons x xs ih =>
      intro acc h
      simp only [List.foldl_cons]
      by_cases hx : x.label = l
      · exact ih _ (by simp [hx])
      · exact ih _ (by simpa [hx] using h)

theorem playerMapLookup_isSome (ps : List ModelConfig) (l : String)
    (h : ∃ p ∈ ps, p.label = l) : (playerMapLookup ps l).isSome := by
  induction ps with
  | nil => simp at h
  | cons x xs ih =>
      obtain ⟨p, hp, hl⟩ := h
      rcases List.mem_cons.mp hp with rfl | hp
      · exact playerMapLookup_aux_acc l xs _ (by simp [playerMapLookup, hl])
      · have := ih ⟨p, hp, hl⟩
        unfold playerMapLookup at this ⊢
        simp only [List.foldl_cons]
        by_cases hx : x.label = l
        · exact playerMapLookup_aux_acc l xs _ (by simp [hx])
        · simpa [hx] using this

theorem load_games_roundtrip (ps : List ModelConfig) :
    ∀ gs : List Game,
      (∀ g ∈ gs, (playerMapLookup ps g.white.label).isSome ∧
        (playerMapLookup ps g.black.label).isSome) →
      ∃ gs2, optionMap (fun gd => Game.from_dict gd (playerMapLookup ps))
          (gs.map Game.to_dict) = some gs2 ∧
        gs2.map Game.to_dict = gs.map Game.to_dict ∧
        ∀ g2 ∈ gs2, g2.white ∈ ps ∧ g2.black ∈ ps := by
  intro gs
  induction gs with
  | nil => exact fun _ => ⟨[], rfl, rfl, by simp⟩
  | cons g rest ih =>
      intro h
      obtain ⟨hw, hb⟩ := h g (List.mem_cons_self g rest)
      obtain ⟨w, hw2⟩ := Option.isSome_iff_exists.mp hw
      obtain ⟨b, hb2⟩ := Option.isSome_iff_exists.mp hb
      obtain ⟨hwmem, hwlab⟩ := playerMapLookup_mem ps _ _ hw2
      obtain ⟨hbmem, hblab⟩ := playerMapLookup_mem ps _ _ hb2
      obtain ⟨gs2, h1, h2, h3⟩ := ih (fun g2 hg2 => h g2 (List.mem_cons_of_mem g hg2))
      refine ⟨{ white := w, black := b, moves := g.moves,
                reasonings := g.reasonings, result := g.result } :: gs2, ?_, ?_, ?_⟩
      · have hd : Game.from_dict (Game.to_dict g) (playerMapLookup ps) =
            some { white := w, black := b, moves := g.moves,
                   reasonings := g.reasonings, result := g.result } := by
          simp [Game.from_dict, Game.to_dict, hw2, hb2]
        simp only [List.map_cons, optionMap, hd, h1]
      · simp [Game.to_dict, h2, hwlab, hblab]
      · intro g2 hg2
        rcases List.mem_cons.mp hg2 with rfl | hg2
        · exact ⟨hwmem, hbmem⟩
        · exact h3 g2 hg2

/-- What the persistence round-trip of `src/src/arena.py` does preserve: for
a league of well-formed players whose game records refer to player labels,
`load_state (save_state lg)` succeeds and reconstructs every player up to
the token/effort budget reset, every game record (labels, moves, rationale
list, result), the completed set and the retry budget, with each reloaded
game's white and black resolved to members of the reloaded player list. -/
theorem league_roundtrip_preserved (lg : LeagueData)
    (hv : ∀ p ∈ lg.players, ¬(p.is_reasoning = true ∧ p.is_COT = true))
    (hg : ∀ g ∈ lg.games, (∃ p ∈ lg.players, p.label = g.white.label) ∧
      (∃ p ∈ lg.players, p.label = g.black.label)) :
    ∃ lg2, League.load_state (League.save_state lg) = some lg2 ∧
      lg2.players = lg.players.map resetBudget ∧
      lg2.games.map Game.to_dict = lg.games.map Game.to_dict ∧
      (∀ g2 ∈ lg2.games, g2.white ∈ lg2.players ∧ g2.black ∈ lg2.players) ∧
      lg2.completed_games = lg.completed_games ∧
      lg2.max_retries = lg.max_retries := by
  have hplayers : optionMap loadPlayer (lg.players.map ModelConfig.to_dict) =
      some (lg.players.map resetBudget) := by
    rw [optionMap_map]
    exact optionMap_eq_some _ _ _ (fun p hp => loadPlayer_to_dict p (hv p hp))
  have hlook : ∀ g ∈ lg.games,
      (playerMapLookup (lg.players.map resetBudget) g.white.label).isSome ∧
      (playerMapLookup (lg.players.map resetBudget) g.black.label).isSome := by
    intro g hgm
    obtain ⟨⟨pw, hpw, hpwl⟩, ⟨pb, hpb, hpbl⟩⟩ := hg g hgm
    constructor
    · exact playerMapLookup_isSome _ _
        ⟨resetBudget pw, List.mem_map_of_mem resetBudget hpw, hpwl⟩
    · exact playerMapLookup_isSome _ _
        ⟨resetBudget pb, List.mem_map_of_mem resetBudget hpb, hpbl⟩
  obtain ⟨gs2, h1, h2, h3⟩ := load_games_roundtrip (lg.players.map resetBudget)
    lg.games hlook
  refine ⟨{ players := lg.players.map resetBudget, max_retries := lg.max_retries,
            games := gs2, completed_games := lg.completed_games }, ?_,
    rfl, h2, h3, rfl, rfl⟩
  simp only [League.load_state, League.save_state, hplayers, h1]

/-- The replay loop of `Game.to_pgn` attaches comments exactly per
`pgnComment`, one node per zipped (move, rationale) pair. -/
theorem pgnNodes_comments (e : ChessEngine P M) :
    ∀ (prs : List (String × String)) (p : P) (ns : List (M × Option String)),
      pgnNodes e p prs = some ns →
      ns.map Prod.snd = prs.map (fun pr => pgnComment pr.2) := by
  intro prs
  induction prs with
  | nil =>
      intro p ns h
      cases h
      rfl
  | cons pr rest ih =>
      intro p ns h
      cases hp : e.parse_san p pr.1 with
      | none =>
          simp only [pgnNodes, hp] at h
          exact Option.noConfusion h
      | some mv =>
          simp only [pgnNodes, hp] at h
          cases hr : pgnNodes e (e.push p mv) rest with
          | none =>
              simp only [hr] at h
              exact Option.noConfusion h
          | some ns2 =>
              simp only [hr, Option.some.injEq] at h
              subst h
              simp [ih _ _ hr]

/-- C8 (amended): in every document `Game.to_pgn` produces, the comment on
a move's node is its recorded rationale, except that attachment is skipped
exactly when the rationale is the empty string or equals the
"No reasoning" sentinel (the Python guard
`if reasoning and reasoning != 'No reasoning'`). -/
theorem export_comment_skipping (e : ChessEngine P M) (today : String)
    (g : Game) (doc : PGNDoc M) (h : Game.to_pgn e today g = some doc) :
    doc.nodes.map Prod.snd = (g.moves.zip g.reasonings).map
      (fun pr => if pr.2 ≠ "" ∧ pr.2 ≠ "No reasoning" then some pr.2 else none) := by
  unfold Game.to_pgn at h
  cases hrc : pyGet ["0-1", "1/2-1/2", "1-0"] (truncInt (g.result * 2)) with
  | none => rw [hrc] at h; cases h
  | some rc =>
      rw [hrc] at h
      cases hn : pgnNodes e e.init (g.moves.zip g.reasonings) with
      | none => rw [hn] at h; cases h
      | some ns =>
          rw [hn] at h
          cases h
          have := pgnNodes_comments e (g.moves.zip g.reasonings) e.init ns hn
          simpa [pgnComment] using this

/-- An Anthropic config in plain mode (neither reasoning nor CoT). -/
def cfgAnthPlain : ModelConfig :=
  { provider := .ANTHROPIC, api_name := "claude", label := "ap",
    instructions := "i", is_reasoning := false, is_COT := false }

/-- A one-move game whose rationale is the Anthropic plain-mode sentinel
string "None". -/
def gameNone : Game :=
  { white := cfgAnthPlain, black := cfgPlain, moves := ["a"],
    reasonings := ["None"], result := 1/2 }

/-- A one-move game whose rationale is the empty string. -/
def gameEmpty : Game :=
  { white := cfgAnthPlain, black := cfgPlain, moves := ["a"],
    reasonings := [""], result := 1/2 }

/-- C8 counterexample: comment attachment is NOT "skipped exactly when the
rationale equals the sentinel" — the Anthropic plain-mode rationale is the
string "None", which is distinct from "No reasoning" and gets attached as a
comment, while an empty rationale is distinct from the sentinel yet gets
skipped. -/
theorem export_comment_skipping_counterexample :
    anthropicRationale cfgAnthPlain "r" [] = "None" ∧
    ("None" : String) ≠ "No reasoning" ∧
    (Game.to_pgn unitEngine "d" gameNone).map (fun doc => doc.nodes.map Prod.snd) =
      some [some "None"] ∧
    ("" : String) ≠ "No reasoning" ∧
    (Game.to_pgn unitEngine "d" gameEmpty).map (fun doc => doc.nodes.map Prod.snd) =
      some [none] := by
  have h1 : ((1/2 : ℚ) * 2) = 1 := by norm_num
  refine ⟨rfl, by decide, ?_, by decide, ?_⟩ <;>
  · simp only [Game.to_pgn, gameNone, gameEmpty, h1]
    decide

/-- A two-move game with one sentinel rationale, for the C8 witness. -/
def gameMixed : Game :=
  { white := cfgAnthPlain, black := cfgPlain, moves := ["a", "b"],
    reasonings := ["No reasoning", "ok"], result := 1/2 }

/-- The document `Game.to_pgn` produces for `gameMixed` on the trivial
engine. -/
def docMixed : PGNDoc Unit :=
  { headers := { date := "d", whiteName := "ap", blackName := "p",
                 whiteEloStr := "400", blackEloStr := "400",
                 resultCode := "1/2-1/2" },
    nodes := [((), none), ((), some "ok")] }

/-- Witness for C8 on a two-move game with one sentinel rationale. -/
theorem export_comment_skipping_witness :
    ∃ doc : PGNDoc Unit,
      Game.to_pgn unitEngine "d" gameMixed = some doc ∧
      doc.nodes.map Prod.snd = ((gameMixed.moves.zip gameMixed.reasonings).map
        (fun pr => if pr.2 ≠ "" ∧ pr.2 ≠ "No reasoning" then some pr.2 else none)) := by
  have hdoc : Game.to_pgn unitEngine "d" gameMixed = some docMixed := by
    have h1 : ((1/2 : ℚ) * 2) = 1 := by norm_num
    simp only [Game.to_pgn, gameMixed, h1]
    decide
  exact ⟨docMixed, hdoc,
    export_comment_skipping unitEngine "d" gameMixed docMixed hdoc⟩

end PromptChess
